import Mathlib

/-!
Verification development for the recipe-journal web application
(`recipe_journal`).  The Python code under `recipe_journal/utils/utils.py`,
`recipe_journal/forms.py` and `recipe_journal/models.py` is shallowly
embedded below: the relational store is a `Database` record holding the
rows of each table as lists, Django ORM primitives (`filter`, `get`,
`get_or_create`, `delete`, `order_by`, `values(...).annotate(Min("id"))`)
become explicit list operations, and code that can raise becomes
`Except`-valued functions.
-/

namespace RecipeJournal

/-! ### Generic list / string helpers

These model, respectively, lexicographic string comparison (the collation
used by `order_by`), the case-insensitive substring test used by the ORM
lookup `__icontains`, and a stable insertion sort standing in for
`order_by` on a queryset. -/

/-- Boolean test: the first character list is an initial segment of the
second one. -/
def charsLeading : List Char → List Char → Bool
  | [], _ => true
  | _ :: _, [] => false
  | a :: as, b :: bs => (a = b : Bool) && charsLeading as bs

/-- Boolean test: the first character list occurs contiguously inside the
second one. -/
def charsContain (needle : List Char) : List Char → Bool
  | [] => needle.isEmpty
  | b :: bs => charsLeading needle (b :: bs) || charsContain needle bs

/-- Lower-casing as a character-list map (`str.lower()` on the SQL side
of `__icontains`). -/
def lowerChars (s : String) : List Char :=
  s.data.map Char.toLower

/-- Model of the Django ORM lookup `field__icontains=needle`:
case-insensitive substring containment. -/
def icontains (hay needle : String) : Bool :=
  charsContain (lowerChars needle) (lowerChars hay)

/-- Boolean lexicographic order on character lists. -/
def charsLe : List Char → List Char → Bool
  | [], _ => true
  | _ :: _, [] => false
  | a :: as, b :: bs => if a = b then charsLe as bs else decide (a < b)

/-- Boolean lexicographic order on strings, modelling the collation used
by `order_by("title")` / `order_by("recipe__title")`. -/
def strLe (a b : String) : Bool :=
  charsLe a.data b.data

/-- Insert an element into a list before the first element it compares
`le` to: the helper of insertion sort. -/
def insertLe (le : α → α → Bool) (a : α) : List α → List α
  | [] => [a]
  | b :: bs => if le a b then a :: b :: bs else b :: insertLe le a bs

/-- Stable insertion sort, modelling `order_by` on a queryset. -/
def sortLe (le : α → α → Bool) : List α → List α
  | [] => []
  | a :: as => insertLe le a (sortLe le as)

theorem mem_insertLe (le : α → α → Bool) (a x : α) (l : List α) :
    x ∈ insertLe le a l ↔ x = a ∨ x ∈ l := by
  induction l with
  | nil => simp [insertLe]
  | cons b bs ih =>
    simp only [insertLe]
    by_cases h : le a b = true
    · simp only [h, if_pos, List.mem_cons]
    · simp only [h, if_neg, Bool.false_eq_true, not_false_iff, List.mem_cons, ih]
      tauto

theorem insertLe_perm (le : α → α → Bool) (a : α) (l : List α) :
    List.Perm (insertLe le a l) (a :: l) := by
  induction l with
  | nil => simp [insertLe]
  | cons b bs ih =>
    simp only [insertLe]
    by_cases h : le a b = true
    · simp [h]
    · simp only [h, if_neg, Bool.false_eq_true, not_false_iff]
      exact (ih.cons b).trans (List.Perm.swap b a bs).symm

theorem sortLe_perm (le : α → α → Bool) (l : List α) :
    List.Perm (sortLe le l) l := by
  induction l with
  | nil => simp [sortLe]
  | cons a as ih =>
    exact (insertLe_perm le a (sortLe le as)).trans (ih.cons a)

theorem mem_sortLe (le : α → α → Bool) (x : α) (l : List α) :
    x ∈ sortLe le l ↔ x ∈ l :=
  (sortLe_perm le l).mem_iff

theorem insertLe_pairwise (le : α → α → Bool)
    (htot : ∀ a b, le a b || le b a)
    (htrans : ∀ a b c, le a b = true → le b c = true → le a c = true)
    (a : α) (l : List α)
    (hl : l.Pairwise (fun x y => le x y = true)) :
    (insertLe le a l).Pairwise (fun x y => le x y = true) := by
  induction l with
  | nil => simp [insertLe]
  | cons b bs ih =>
    rcases List.pairwise_cons.mp hl with ⟨hb, hbs⟩
    simp only [insertLe]
    by_cases h : le a b = true
    · rw [if_pos h]
      refine List.pairwise_cons.mpr ⟨?_, hl⟩
      intro y hy
      rcases List.mem_cons.mp hy with rfl | hy
      · exact h
      · exact htrans a b y h (hb y hy)
    · rw [if_neg h]
      refine List.pairwise_cons.mpr ⟨?_, ih hbs⟩
      intro y hy
      rcases (mem_insertLe le a y bs).mp hy with rfl | hy
      · cases hab : le y b with
        | true => exact absurd hab h
        | false =>
          have h2 := htot y b
          rw [hab] at h2
          simpa using h2
      · exact hb y hy

theorem sortLe_pairwise (le : α → α → Bool)
    (htot : ∀ a b, le a b || le b a)
    (htrans : ∀ a b c, le a b = true → le b c = true → le a c = true)
    (l : List α) :
    (sortLe le l).Pairwise (fun x y => le x y = true) := by
  induction l with
  | nil => simp [sortLe]
  | cons a as ih => exact insertLe_pairwise le htot htrans a (sortLe le as) ih

/-- A filter with a pointwise-weaker predicate yields a superlist:
`filter p l` is a sublist of `filter q l` when `p` implies `q`. -/
theorem filter_sublist_of_imp (p q : α → Bool)
    (h : ∀ x, p x = true → q x = true) (l : List α) :
    List.Sublist (l.filter p) (l.filter q) := by
  induction l with
  | nil => simp
  | cons a as ih =>
    by_cases hp : p a = true
    · have hq := h a hp
      simpa [List.filter_cons, hp, hq] using ih.cons₂ a
    · by_cases hq : q a = true
      · simpa [List.filter_cons, hp, hq] using ih.cons a
      · simpa [List.filter_cons, hp, hq] using ih

theorem charsLe_total : ∀ a b : List Char, charsLe a b || charsLe b a := by
  intro a
  induction a with
  | nil => intro b; simp [charsLe]
  | cons x xs ih =>
    intro b
    cases b with
    | nil => simp [charsLe]
    | cons y ys =>
      simp only [charsLe]
      by_cases hxy : x = y
      · subst hxy
        simpa using ih ys
      · have hyx : ¬ y = x := fun h => hxy h.symm
        rw [if_neg hxy, if_neg hyx]
        rcases lt_or_gt_of_ne hxy with h | h
        · simp [h]
        · simp [h]

theorem charsLe_trans :
    ∀ a b c : List Char, charsLe a b = true → charsLe b c = true → charsLe a c = true := by
  intro a
  induction a with
  | nil => intro b c _ _; simp [charsLe]
  | cons x xs ih =>
    intro b c h1 h2
    cases b with
    | nil => simp [charsLe] at h1
    | cons y ys =>
      cases c with
      | nil => simp [charsLe] at h2
      | cons z zs =>
        simp only [charsLe] at h1 h2 ⊢
        by_cases hxy : x = y
        · subst hxy
          rw [if_pos rfl] at h1
          by_cases hyz : x = z
          · subst hyz
            rw [if_pos rfl] at h2
            rw [if_pos rfl]
            exact ih ys zs h1 h2
          · rw [if_neg hyz] at h2
            rw [if_neg hyz]
            exact h2
        · rw [if_neg hxy] at h1
          by_cases hyz : y = z
          · subst hyz
            rw [if_neg hxy]
            exact h1
          · rw [if_neg hyz] at h2
            have hxz : x < z :=
              lt_trans (of_decide_eq_true h1) (of_decide_eq_true h2)
            rw [if_neg (ne_of_lt hxz)]
            exact decide_eq_true hxz

theorem strLe_total (a b : String) : strLe a b || strLe b a :=
  charsLe_total a.data b.data

theorem strLe_trans (a b c : String) :
    strLe a b = true → strLe b c = true → strLe a c = true :=
  charsLe_trans a.data b.data c.data

/-! ### Data model (`recipe_journal/models.py` and the spec's § 3)

`Member` rows carry the asymmetric `friends` relation as a list of member
ids.  `Recipe` rows carry the names of their ingredients: the Python model
reaches them through `recipe.recipe_ingredient` (a many-to-many set of
`RecipeIngredient` rows) and then `recipe_ingredient.ingredient.name`; the
filter engine only ever consumes the resulting names
(`recipe__recipe_ingredient__ingredient__name__icontains`), so the join is
flattened here. -/

structure MemberRec where
  id : Nat
  username : String
  password : String
  friends : List Nat
deriving Repr, DecidableEq

structure RecipeRec where
  id : Nat
  title : String
  category : String
  ingredientNames : List String
deriving Repr, DecidableEq

/-- Modelled from the spec: the `RecipeCollectionEntry` model.  The
`models.py` under version control still holds an older design iteration
(three separate tables `RecipeAlbumEntry` / `RecipeToTryEntry` /
`RecipeHistoryEntry`); the single polymorphic `RecipeCollectionEntry`
model with a `collection_name` discriminator that `forms.py` and
`utils/utils.py` import is missing from the source tree.  Spec § 3: a row
is `(collection_name ∈ {history, album, trials}, member, recipe,
saving_date, personal_note)`; ids are the relational store's primary
keys. -/
structure CollectionEntry where
  id : Nat
  collection_name : String
  member : Nat
  recipe : Nat
  saving_date : Int
  personal_note : Option String
deriving Repr, DecidableEq

/-- Modelled from the spec: `RecipeCollectionEntry.MODEL_COLLECTION_CHOICES`,
the `(key, human title)` pairs of the `collection_name` discriminator,
missing from the checked-in `models.py` (spec § 3 and glossary: history /
album / trials; titles as used by the confirmation messages). -/
def MODEL_COLLECTION_CHOICES : List (String × String) :=
  [("history", "Historique de recettes"),
   ("album", "Album de recettes"),
   ("trials", "Recettes à essayer")]

/-- The whole relational store. `next_entry_id` models the
auto-incremented primary key of `RecipeCollectionEntry`. -/
structure Database where
  members : List MemberRec
  recipes : List RecipeRec
  entries : List CollectionEntry
  next_entry_id : Nat
deriving Repr, DecidableEq

/-! ### Collection membership manager (`utils/utils.py`, `update_collection`) -/

/-- The lookup key used by `update_collection` for both `get_or_create`
and `delete`: `(collection_name, member, recipe_id)` — note the absence of
`saving_date`. -/
def matchesKey (cn : String) (member recipe : Nat) (e : CollectionEntry) : Bool :=
  decide (e.collection_name = cn) && decide (e.member = member) && decide (e.recipe = recipe)

inductive OrmError where
  | multipleObjectsReturned
deriving Repr, DecidableEq

/-- Model of `RecipeCollectionEntry.objects.get_or_create(collection_name=…,
member=…, recipe_id=…)` (utils.py lines 583-587).  Django semantics: `get`
the rows matching the kwargs; exactly one → return it with
`created=False`; none → insert a fresh row (here with today's date, the
model default for `saving_date`) and return it with `created=True`; more
than one → raise `MultipleObjectsReturned`. -/
def rce_get_or_create (db : Database) (cn : String) (member recipe : Nat) (today : Int) :
    Except OrmError (CollectionEntry × Bool × Database) :=
  match db.entries.filter (matchesKey cn member recipe) with
  | [] =>
    let e : CollectionEntry :=
      { id := db.next_entry_id, collection_name := cn, member := member,
        recipe := recipe, saving_date := today, personal_note := none }
    Except.ok (e, true,
      { db with entries := db.entries ++ [e], next_entry_id := db.next_entry_id + 1 })
  | [e] => Except.ok (e, false, db)
  | _ => Except.error OrmError.multipleObjectsReturned

/-- Model of `RecipeCollectionEntry.objects.filter(collection_name=…,
member=…, recipe_id=…).delete()` (utils.py lines 594-598): removes every
matching row and reports how many were removed. -/
def rce_delete (db : Database) (cn : String) (member recipe : Nat) : Nat × Database :=
  ((db.entries.filter (matchesKey cn member recipe)).length,
   { db with entries := db.entries.filter (fun e => ! matchesKey cn member recipe e) })

structure ApiResponse where
  status : Nat
  message : String
deriving Repr, DecidableEq

/-- `dict(RecipeCollectionEntry.MODEL_COLLECTION_CHOICES).get(collection_name)`. -/
def collection_title (cn : String) : String :=
  (MODEL_COLLECTION_CHOICES.lookup cn).getD ""

/-- Model of `check_request_validity` (utils.py lines 532-561): the session
user, the `recipe_id` POST field and the `collection_name` POST field must
all be present (`none` models both "absent" and Python-falsy values), and
`collection_name` must be one of the known discriminator keys. Returns
the error response when any check fails. -/
def check_request_validity (logged_user : Option Nat) (recipe_id : Option Nat)
    (collection_name : Option String) : Option ApiResponse :=
  match logged_user with
  | none => some { status := 400, message := "Aucun utilisateur connecté." }
  | some _ =>
    match recipe_id with
    | none => some { status := 400, message := "ID de recette manquant." }
    | some _ =>
      match collection_name with
      | none => some { status := 400, message := "Nom de la collection manquant." }
      | some cn =>
        if MODEL_COLLECTION_CHOICES.any (fun p => decide (p.1 = cn)) then none
        else some { status := 400, message := "Le modèle " ++ cn ++ " est inconnu." }

/-- Model of `update_collection` (utils.py lines 563-621).  The
`try/except` of the source catches the `MultipleObjectsReturned` my
`rce_get_or_create` can report and turns it into the generic 500
response; the final `else` is the invalid-action 400. -/
def update_collection (db : Database) (logged_user : Option Nat) (recipe_id : Option Nat)
    (collection_name : Option String) (action : String) (today : Int) :
    ApiResponse × Database :=
  match check_request_validity logged_user recipe_id collection_name with
  | some err => (err, db)
  | none =>
    match logged_user, recipe_id, collection_name with
    | some user, some rid, some cn =>
      let title := collection_title cn
      if action = "add" then
        match rce_get_or_create db cn user rid today with
        | Except.ok (_, created, db2) =>
          if created then
            ({ status := 200, message := "La recette a été ajoutée à votre " ++ title ++ "." }, db2)
          else
            ({ status := 200, message := "La recette fait déjà partie de votre " ++ title ++ "." }, db2)
        | Except.error _ =>
          ({ status := 500, message := "Une erreur est survenue." }, db)
      else if action = "remove" then
        let res := rce_delete db cn user rid
        if res.1 > 0 then
          ({ status := 200, message := "La recette a été supprimée de votre " ++ title ++ "." }, res.2)
        else
          ({ status := 200, message := "La recette ne fait pas partie de votre " ++ title ++ "." }, res.2)
      else
        ({ status := 400, message := "Une erreur est survenue: Action non valide." }, db)
    | _, _, _ => ({ status := 400, message := "" }, db)

/-! ### History entries dated by hand (`forms.py`, `CreateRecipeHistoryForm`) -/

/-- The existence key of `CreateRecipeHistoryForm.clean`:
`(collection_name="history", member, recipe, saving_date)`. -/
def historyDateKey (member recipe : Nat) (d : Int) (e : CollectionEntry) : Bool :=
  matchesKey "history" member recipe e && decide (e.saving_date = d)

/-- Model of validating and saving a `CreateRecipeHistoryForm`
(forms.py lines 400-433): `clean` forces `collection_name` to
`"history"` and raises a `ValidationError` when an entry with the same
`(history, member, recipe, saving_date)` already exists; otherwise the
`ModelForm` save inserts the new row. -/
def create_recipe_history (db : Database) (member recipe : Nat) (saving_date : Int)
    (note : Option String) : Except String Database :=
  if db.entries.any (historyDateKey member recipe saving_date) then
    Except.error "La recette fait déjà partie de votre historique pour cette date!"
  else
    Except.ok { db with
      entries := db.entries ++
        [{ id := db.next_entry_id, collection_name := "history", member := member,
           recipe := recipe, saving_date := saving_date, personal_note := note }],
      next_entry_id := db.next_entry_id + 1 }

/-- A sequence of `CreateRecipeHistoryForm` submissions for the same
`(member, recipe)`, one per date, stopping at the first rejection. -/
def add_history_dates (member recipe : Nat) : Database → List Int → Except String Database
  | db, [] => Except.ok db
  | db, d :: ds =>
    match create_recipe_history db member recipe d none with
    | Except.ok db2 => add_history_dates member recipe db2 ds
    | Except.error e => Except.error e

/-! ### Recipe / collection filter engine (`utils/utils.py` lines 330-485)

The search criteria of `SearchRecipeForm` / `ShowRecipeCollectionForm`:
Django `CharField`s with `required=False` clean empty inputs to `""`, so
an absent criterion is the empty string, and a Python truthiness test
(`if title:`) is a `≠ ""` test here.  The `member` criterion is either
absent, the sentinel `"friends"`, or a concrete member
(`ModelChoiceField`).  Ingredient-name normalization
(`normalize_ingredient`, a spaCy lemmatizer) is an injected external
collaborator, passed in as a plain function `normalize`. -/

inductive MemberScope where
  | empty
  | friends
  | mem (id : Nat)
deriving Repr, DecidableEq

structure FilterForm where
  title : String
  category : String
  ingredient_1 : String
  ingredient_2 : String
  ingredient_3 : String
  collection_name : String
  member : MemberScope
deriving Repr, DecidableEq

/-- Model of `get_ingredient_inputs` (utils.py lines 344-360): the three
ingredient fields, each passed through `normalize_ingredient`. -/
def get_ingredient_inputs (normalize : String → String) (form : FilterForm) : List String :=
  [normalize form.ingredient_1, normalize form.ingredient_2, normalize form.ingredient_3]

/-- The foreign-key join `entry.recipe`: the recipe row the entry points
at, if it exists. -/
def recipeOf (db : Database) (e : CollectionEntry) : Option RecipeRec :=
  db.recipes.find? (fun r => decide (r.id = e.recipe))

/-- The `recipe__title` join key used by `order_by("recipe__title")` and
`recipe__title__icontains`. -/
def entry_title (db : Database) (e : CollectionEntry) : String :=
  ((recipeOf db e).map RecipeRec.title).getD ""

def entry_category (db : Database) (e : CollectionEntry) : String :=
  ((recipeOf db e).map RecipeRec.category).getD ""

/-- Comparator of `order_by("recipe__title")`. -/
def byRecipeTitle (db : Database) (a b : CollectionEntry) : Bool :=
  strLe (entry_title db a) (entry_title db b)

/-- Comparator of `order_by("-saving_date")`: newest first. -/
def byDateDesc (a b : CollectionEntry) : Bool :=
  decide (b.saving_date ≤ a.saving_date)

/-- Model of `get_recipe_collection_by_sort_order` (utils.py lines
362-379). -/
def get_recipe_collection_by_sort_order (db : Database) (collection_name : String) :
    List CollectionEntry :=
  if collection_name = "history" then
    sortLe byDateDesc
      (db.entries.filter (fun e => decide (e.collection_name = collection_name)))
  else if collection_name ≠ "" then
    sortLe (byRecipeTitle db)
      (db.entries.filter (fun e => decide (e.collection_name = collection_name)))
  else
    sortLe (byRecipeTitle db) db.entries

/-- `logged_user.friends.all()`: the friend ids of a member. -/
def friendsOf (db : Database) (u : Nat) : List Nat :=
  ((db.members.find? (fun m => decide (m.id = u))).map MemberRec.friends).getD []

/-- Model of `filter_recipe_collection_by_member` (utils.py lines
381-406): raises `ValueError` when the `"friends"` sentinel comes without
a logged-in user; no member → queryset unchanged; `"friends"` → only
entries of the logged-in user's friends; a concrete member → only that
member's entries.  The final wildcard mirrors the source's unreachable
fall-through (the guard above it already raised). -/
def filter_recipe_collection_by_member (db : Database) (qs : List CollectionEntry)
    (member : MemberScope) (logged_user : Option Nat) : Except String (List CollectionEntry) :=
  if member = MemberScope.friends ∧ logged_user = none then
    Except.error "logged_user doit être défini si member == friends"
  else if member = MemberScope.empty then
    Except.ok qs
  else
    match member, logged_user with
    | MemberScope.friends, some u =>
      Except.ok (qs.filter (fun e => (friendsOf db u).contains e.member))
    | MemberScope.mem m, _ =>
      Except.ok (qs.filter (fun e => decide (e.member = m)))
    | _, _ => Except.ok qs

/-- Model of `qs.values(key…).annotate(min_id=Min("id"))` (utils.py lines
428-431): the smallest id inside the key-group of `g`. -/
def group_min_id {κ : Type} [DecidableEq κ] (qs : List CollectionEntry)
    (k : CollectionEntry → κ) (g : CollectionEntry) : Nat :=
  ((qs.filter (fun x => decide (k x = k g))).map CollectionEntry.id).foldr min g.id

/-- Model of `qs.filter(id__in=distinct_ids)` (utils.py line 433): keep
the rows whose id is the minimum of some key-group. -/
def collapse_min_id {κ : Type} [DecidableEq κ] (qs : List CollectionEntry)
    (k : CollectionEntry → κ) : List CollectionEntry :=
  qs.filter (fun e => (qs.map (fun g => group_min_id qs k g)).contains e.id)

def historyGroupKey (e : CollectionEntry) : Nat × Int := (e.recipe, e.saving_date)

def recipeGroupKey (e : CollectionEntry) : Nat := e.recipe

def recipe_has_ingredient_like (r : RecipeRec) (term : String) : Bool :=
  r.ingredientNames.any (fun nm => icontains nm term)

/-- The join lookup
`recipe__recipe_ingredient__ingredient__name__icontains=term` on a
collection entry. -/
def entry_has_ingredient_like (db : Database) (e : CollectionEntry) (term : String) : Bool :=
  match recipeOf db e with
  | some r => recipe_has_ingredient_like r term
  | none => false

/-- The `filters` dict of utils.py lines 435-441 applied at once: the
title condition participates only when `title` is truthy, likewise the
category condition. -/
def entry_passes_title_category (db : Database) (title category : String)
    (e : CollectionEntry) : Bool :=
  (decide (title = "") || icontains (entry_title db e) title) &&
  (decide (category = "") || decide (entry_category db e = category))

def apply_ingredient_filters (db : Database) (terms : List String)
    (qs : List CollectionEntry) : List CollectionEntry :=
  terms.foldl
    (fun acc term =>
      if term ≠ "" then acc.filter (fun e => entry_has_ingredient_like db e term) else acc)
    qs

/-- Model of `get_filtered_recipe_collection_qs` (utils.py lines 408-447):
ordered base universe for the collection, member-scope narrowing, min-id
collapse (per `(recipe, saving_date)` for history, per recipe otherwise),
the title/category filters, then one narrowing filter per non-empty
normalized ingredient term. -/
def get_filtered_recipe_collection_qs (normalize : String → String) (db : Database)
    (form : FilterForm) (logged_user : Option Nat) : Except String (List CollectionEntry) :=
  let terms := get_ingredient_inputs normalize form
  let qs := get_recipe_collection_by_sort_order db form.collection_name
  match filter_recipe_collection_by_member db qs form.member logged_user with
  | Except.error e => Except.error e
  | Except.ok qs1 =>
    let qs2 :=
      if form.collection_name = "history" then collapse_min_id qs1 historyGroupKey
      else collapse_min_id qs1 recipeGroupKey
    let qs3 := qs2.filter (entry_passes_title_category db form.title form.category)
    Except.ok (apply_ingredient_filters db terms qs3)

def recipeTitleLe (a b : RecipeRec) : Bool := strLe a.title b.title

def recipe_passes_title_category (title category : String) (r : RecipeRec) : Bool :=
  (decide (title = "") || icontains r.title title) &&
  (decide (category = "") || decide (r.category = category))

def apply_recipe_ingredient_filters (terms : List String)
    (qs : List RecipeRec) : List RecipeRec :=
  terms.foldl
    (fun acc term =>
      if term ≠ "" then acc.filter (fun r => recipe_has_ingredient_like r term) else acc)
    qs

/-- Model of `get_filtered_recipe_qs` (utils.py lines 449-485): the
bare-recipe search.  No member scope → the whole `Recipe` table;
otherwise the recipes appearing in the member-scoped collection entries.
Then the title/category filters, the ingredient filters, and
`order_by("title")`. -/
def get_filtered_recipe_qs (normalize : String → String) (db : Database)
    (form : FilterForm) (logged_user : Option Nat) : Except String (List RecipeRec) :=
  let terms := get_ingredient_inputs normalize form
  let base : Except String (List RecipeRec) :=
    if form.member = MemberScope.empty then Except.ok db.recipes
    else
      match filter_recipe_collection_by_member db
          (sortLe (byRecipeTitle db) db.entries) form.member logged_user with
      | Except.error e => Except.error e
      | Except.ok cqs =>
        let ids := cqs.map CollectionEntry.recipe
        Except.ok (db.recipes.filter (fun r => ids.contains r.id))
  match base with
  | Except.error e => Except.error e
  | Except.ok qs =>
    let qs1 := qs.filter (recipe_passes_title_category form.title form.category)
    Except.ok (sortLe recipeTitleLe (apply_recipe_ingredient_filters terms qs1))

/-- The full ordered recipe universe: the "browse all" listing, ordered
by `order_by("title")`. -/
def recipe_universe (db : Database) : List RecipeRec :=
  sortLe recipeTitleLe db.recipes

/-- Following the words of spec § 4.2 (algorithm steps 2 and 3) for
comparison with the implementation: the same collection search engine,
except that the min-id collapse is applied to the collection-entry
universe FIRST and the member-scope narrowing is applied afterwards. -/
def spec_collapse_then_member (normalize : String → String) (db : Database)
    (form : FilterForm) (logged_user : Option Nat) : Except String (List CollectionEntry) :=
  let terms := get_ingredient_inputs normalize form
  let qs := get_recipe_collection_by_sort_order db form.collection_name
  let qs1 :=
    if form.collection_name = "history" then collapse_min_id qs historyGroupKey
    else collapse_min_id qs recipeGroupKey
  match filter_recipe_collection_by_member db qs1 form.member logged_user with
  | Except.error e => Except.error e
  | Except.ok qs2 =>
    let qs3 := qs2.filter (entry_passes_title_category db form.title form.category)
    Except.ok (apply_ingredient_filters db terms qs3)

/-! ### Login (`forms.py`, `LoginForm.clean`, lines 10-31) -/

/-- Model of `LoginForm.clean`: when both fields are present, look the
member up by username (`Member.objects.get`); no such member →
`ValidationError` with the generic message; member found but stored hash
does not verify → `ValidationError` with the same generic message; more
than one member with the username → `MultipleObjectsReturned` escapes
(a different, non-form error).  `check_password` (salted-hash
verification) is an external library call, injected as `checkPw raw
stored`. -/
def login_clean (checkPw : String → String → Bool) (members : List MemberRec)
    (username password : String) : Except String Unit :=
  if username ≠ "" ∧ password ≠ "" then
    match members.filter (fun m => decide (m.username = username)) with
    | [] => Except.error "Identifiant ou mot de passe erroné."
    | [m] =>
      if checkPw password m.password then Except.ok ()
      else Except.error "Identifiant ou mot de passe erroné."
    | _ => Except.error "MultipleObjectsReturned"
  else
    Except.ok ()

/-- C6: requesting the `"friends"` member scope without a logged-in
identity raises `ValueError`; with an identity the queryset is restricted
to entries whose member is in the identity's friends relation; with no
member criterion the queryset is returned unrestricted
(`filter_recipe_collection_by_member`, utils.py lines 381-406). -/
theorem member_scope_semantics (db : Database) (qs : List CollectionEntry) (u : Nat) :
    (∃ msg, filter_recipe_collection_by_member db qs MemberScope.friends none =
      Except.error msg) ∧
    filter_recipe_collection_by_member db qs MemberScope.friends (some u) =
      Except.ok (qs.filter (fun e => (friendsOf db u).contains e.member)) ∧
    ∀ lu, filter_recipe_collection_by_member db qs MemberScope.empty lu = Except.ok qs := by
  refine ⟨⟨"logged_user doit être défini si member == friends", ?_⟩, ?_, ?_⟩
  · simp [filter_recipe_collection_by_member]
  · simp [filter_recipe_collection_by_member]
  · intro lu
    simp [filter_recipe_collection_by_member]

/-- C10: a login attempt with a nonexistent username and one with an
existing username but a wrong password produce the identical generic
"invalid credentials" error message (`LoginForm.clean`, forms.py lines
10-31). -/
theorem login_failures_indistinguishable (checkPw : String → String → Bool)
    (members : List MemberRec) (u1 p1 u2 p2 : String) (m : MemberRec)
    (hu1 : u1 ≠ "") (hp1 : p1 ≠ "") (hu2 : u2 ≠ "") (hp2 : p2 ≠ "")
    (habsent : members.filter (fun x => decide (x.username = u1)) = [])
    (hfound : members.filter (fun x => decide (x.username = u2)) = [m])
    (hwrong : checkPw p2 m.password = false) :
    ∃ msg, login_clean checkPw members u1 p1 = Except.error msg ∧
           login_clean checkPw members u2 p2 = Except.error msg := by
  refine ⟨"Identifiant ou mot de passe erroné.", ?_, ?_⟩
  · simp [login_clean, hu1, hp1, habsent]
  · simp [login_clean, hu2, hp2, hfound, hwrong]

/-- Witness for C10 at a concrete store: one member "alice" whose stored
hash verifies nothing; "bob" does not exist. -/
theorem login_failures_indistinguishable_witness :
    ∃ msg,
      login_clean (fun _ _ => false) [{ id := 1, username := "alice", password := "h", friends := [] }]
        "bob" "pw" = Except.error msg ∧
      login_clean (fun _ _ => false) [{ id := 1, username := "alice", password := "h", friends := [] }]
        "alice" "pw" = Except.error msg :=
  login_failures_indistinguishable (fun _ _ => false)
    [{ id := 1, username := "alice", password := "h", friends := [] }]
    "bob" "pw" "alice" "pw" { id := 1, username := "alice", password := "h", friends := [] }
    (by decide) (by decide) (by decide) (by decide) (by decide) (by decide) rfl

/-- C1: starting from a store with no `(collection_name, member, recipe)`
entry, a first add creates the entry (`created=True`); a second add of
the same triple returns the very same entry with `created=False`, does
not raise, and the count of matching entries stays exactly 1
(`update_collection` action `"add"`, utils.py lines 580-592, for the
album / trials collections). -/
theorem album_trials_duplicate_add (db : Database) (M R : Nat) (cn : String) (t1 t2 : Int)
    (_hcn : cn = "album" ∨ cn = "trials")
    (h0 : db.entries.filter (matchesKey cn M R) = []) :
    ∃ e db1,
      rce_get_or_create db cn M R t1 = Except.ok (e, true, db1) ∧
      (db1.entries.filter (matchesKey cn M R)).length = 1 ∧
      rce_get_or_create db1 cn M R t2 = Except.ok (e, false, db1) ∧
      (db1.entries.filter (matchesKey cn M R)).length = 1 := by
  have hkey : matchesKey cn M R
      { id := db.next_entry_id, collection_name := cn, member := M, recipe := R,
        saving_date := t1, personal_note := none } = true := by
    simp [matchesKey]
  refine ⟨{ id := db.next_entry_id, collection_name := cn, member := M, recipe := R,
            saving_date := t1, personal_note := none },
          { db with
            entries := db.entries ++
              [{ id := db.next_entry_id, collection_name := cn, member := M, recipe := R,
                 saving_date := t1, personal_note := none }],
            next_entry_id := db.next_entry_id + 1 }, ?_, ?_, ?_, ?_⟩
  · simp [rce_get_or_create, h0]
  · simp [List.filter_append, h0, hkey]
  · simp [rce_get_or_create, List.filter_append, h0, hkey]
  · simp [List.filter_append, h0, hkey]

/-- Witness for C1: member 7 adds recipe 3 to the album twice. -/
theorem album_trials_duplicate_add_witness :
    ∃ e db1,
      rce_get_or_create { members := [], recipes := [], entries := [], next_entry_id := 0 }
        "album" 7 3 (5 : Int) = Except.ok (e, true, db1) ∧
      (db1.entries.filter (matchesKey "album" 7 3)).length = 1 ∧
      rce_get_or_create db1 "album" 7 3 (6 : Int) = Except.ok (e, false, db1) ∧
      (db1.entries.filter (matchesKey "album" 7 3)).length = 1 :=
  album_trials_duplicate_add
    { members := [], recipes := [], entries := [], next_entry_id := 0 }
    7 3 "album" 5 6 (Or.inl rfl) (by decide)

/-- Helper for C2: a run of `CreateRecipeHistoryForm` submissions over
pairwise-distinct dates none of which is already present all succeeds,
and grows the `(member, recipe)` history count by exactly the number of
dates. -/
theorem add_history_dates_ok (M R : Nat) :
    ∀ (dates : List Int) (db : Database), dates.Nodup →
    (∀ d ∈ dates, ∀ e ∈ db.entries, historyDateKey M R d e = false) →
    ∃ db2, add_history_dates M R db dates = Except.ok db2 ∧
      (db2.entries.filter (matchesKey "history" M R)).length =
        (db.entries.filter (matchesKey "history" M R)).length + dates.length := by
  intro dates
  induction dates with
  | nil =>
    intro db _ _
    exact ⟨db, rfl, by simp⟩
  | cons d ds ih =>
    intro db hnd hfresh
    have hany : db.entries.any (historyDateKey M R d) = false := by
      rw [List.any_eq_false]
      intro e he
      simp [hfresh d (by simp) e he]
    have hstep : create_recipe_history db M R d none = Except.ok
        { db with
          entries := db.entries ++
            [{ id := db.next_entry_id, collection_name := "history", member := M,
               recipe := R, saving_date := d, personal_note := none }],
          next_entry_id := db.next_entry_id + 1 } := by
      simp [create_recipe_history, hany]
    have hfresh2 : ∀ d' ∈ ds, ∀ e ∈
        (db.entries ++
          [{ id := db.next_entry_id, collection_name := "history", member := M,
             recipe := R, saving_date := d, personal_note := none }]),
        historyDateKey M R d' e = false := by
      intro d' hd' e he
      rcases List.mem_append.mp he with he | he
      · exact hfresh d' (List.mem_cons_of_mem _ hd') e he
      · rcases List.mem_singleton.mp he with rfl
        have hne : ¬ d = d' := fun h => (List.nodup_cons.mp hnd).1 (h ▸ hd')
        simp [historyDateKey, matchesKey, hne]
    obtain ⟨db2, hrun, hlen⟩ :=
      ih { db with
            entries := db.entries ++
              [{ id := db.next_entry_id, collection_name := "history", member := M,
                 recipe := R, saving_date := d, personal_note := none }],
            next_entry_id := db.next_entry_id + 1 }
        (List.nodup_cons.mp hnd).2 hfresh2
    refine ⟨db2, ?_, ?_⟩
    · simp only [add_history_dates, hstep]
      exact hrun
    · rw [hlen]
      have hmk : matchesKey "history" M R
          { id := db.next_entry_id, collection_name := "history", member := M,
            recipe := R, saving_date := d, personal_note := none } = true := by
        simp [matchesKey]
      simp [List.filter_append, hmk]
      omega

/-- C2: starting from a store with no history entry for `(member,
recipe)`, a sequence of `CreateRecipeHistoryForm` adds over
pairwise-distinct saving dates all succeeds, and afterwards the number
of history entries for the pair equals the number of dates used; an add
repeating an already-used `(member, recipe, saving_date)` triple is
rejected with a form-level domain error (forms.py lines 400-433). -/
theorem history_distinct_dates_all_created (db : Database) (M R : Nat) (dates : List Int)
    (hnodup : dates.Nodup)
    (h0 : db.entries.filter (matchesKey "history" M R) = []) :
    (∃ db2, add_history_dates M R db dates = Except.ok db2 ∧
      (db2.entries.filter (matchesKey "history" M R)).length = dates.length) ∧
    (∀ (db' : Database) (d : Int), db'.entries.any (historyDateKey M R d) = true →
      create_recipe_history db' M R d none =
        Except.error "La recette fait déjà partie de votre historique pour cette date!") := by
  constructor
  · have hfresh : ∀ d ∈ dates, ∀ e ∈ db.entries, historyDateKey M R d e = false := by
      intro d _ e he
      have hmk : ¬ matchesKey "history" M R e = true := List.filter_eq_nil_iff.mp h0 e he
      simp only [historyDateKey, Bool.and_eq_false_iff]
      left
      exact Bool.not_eq_true _ ▸ hmk
    obtain ⟨db2, h1, h2⟩ := add_history_dates_ok M R dates db hnodup hfresh
    refine ⟨db2, h1, ?_⟩
    rw [h2, h0]
    simp
  · intro db' d h
    simp [create_recipe_history, h]

/-- Witness for C2: member 4, recipe 9, dates 10 and 11 on an empty
store, plus a rejected repeat of date 10. -/
theorem history_distinct_dates_all_created_witness :
    (∃ db2, add_history_dates 4 9
        { members := [], recipes := [], entries := [], next_entry_id := 0 }
        [10, 11] = Except.ok db2 ∧
      (db2.entries.filter (matchesKey "history" 4 9)).length = 2) ∧
    (∀ (db' : Database) (d : Int), db'.entries.any (historyDateKey 4 9 d) = true →
      create_recipe_history db' 4 9 d none =
        Except.error "La recette fait déjà partie de votre historique pour cette date!") :=
  history_distinct_dates_all_created
    { members := [], recipes := [], entries := [], next_entry_id := 0 }
    4 9 [10, 11] (by decide) (by decide)

/-- A store holding two history entries for the same `(member, recipe)`
pair on two different dates — a state the dated history form is allowed
to create. -/
def dbTwoHistory : Database :=
  { members := [], recipes := [],
    entries :=
      [{ id := 0, collection_name := "history", member := 1, recipe := 1,
         saving_date := 10, personal_note := none },
       { id := 1, collection_name := "history", member := 1, recipe := 1,
         saving_date := 11, personal_note := none }],
    next_entry_id := 2 }

/-- Counterexample to C3 as stated: with two dated history entries for
`(member 1, recipe 1)` already present, the generic add path does NOT
return `created=False` — the saving-date-free `get` inside
`get_or_create` finds more than one row, raises
`MultipleObjectsReturned`, and `update_collection` answers with the
generic 500 error (leaving the store unchanged). -/
theorem history_generic_add_created_false_fails :
    1 ≤ (dbTwoHistory.entries.filter (matchesKey "history" 1 1)).length ∧
    rce_get_or_create dbTwoHistory "history" 1 1 12 =
      Except.error OrmError.multipleObjectsReturned ∧
    update_collection dbTwoHistory (some 1) (some 1) (some "history") "add" 12 =
      ({ status := 500, message := "Une erreur est survenue." }, dbTwoHistory) :=
  ⟨by decide, rfl, rfl⟩

/-- C3 (amended): when at least one history entry for `(member, recipe)`
already exists, the generic add path never creates a second dated entry:
with exactly one existing entry `get_or_create` returns it with
`created=False` and the store is unchanged; with two or more it raises
`MultipleObjectsReturned` (surfaced as a 500); in every case
`update_collection` leaves the store unchanged, because its existence
lookup is keyed only on `(collection_name, member, recipe)` and omits
`saving_date` (utils.py lines 580-592). -/
theorem history_generic_add_never_duplicates (db : Database) (M R : Nat) (t : Int)
    (h1 : 1 ≤ (db.entries.filter (matchesKey "history" M R)).length) :
    ((db.entries.filter (matchesKey "history" M R)).length = 1 →
      ∃ e, rce_get_or_create db "history" M R t = Except.ok (e, false, db)) ∧
    (2 ≤ (db.entries.filter (matchesKey "history" M R)).length →
      rce_get_or_create db "history" M R t =
        Except.error OrmError.multipleObjectsReturned) ∧
    (update_collection db (some M) (some R) (some "history") "add" t).2 = db := by
  rcases hl : db.entries.filter (matchesKey "history" M R) with _ | ⟨e, rest⟩
  · rw [hl] at h1
    simp at h1
  · rcases rest with _ | ⟨e2, rest2⟩
    · refine ⟨fun _ => ⟨e, ?_⟩, fun h2 => ?_, ?_⟩
      · simp [rce_get_or_create, hl]
      · simp at h2
      · simp [update_collection, check_request_validity, MODEL_COLLECTION_CHOICES,
          rce_get_or_create, hl]
    · refine ⟨fun h2 => ?_, fun _ => ?_, ?_⟩
      · simp at h2
      · simp [rce_get_or_create, hl]
      · simp [update_collection, check_request_validity, MODEL_COLLECTION_CHOICES,
          rce_get_or_create, hl]

/-- A store holding exactly one history entry for `(member 1, recipe 1)`. -/
def dbOneHistory : Database :=
  { members := [], recipes := [],
    entries :=
      [{ id := 0, collection_name := "history", member := 1, recipe := 1,
         saving_date := 10, personal_note := none }],
    next_entry_id := 1 }

/-- Witness for the amended C3 at a single existing entry. -/
theorem history_generic_add_never_duplicates_witness :
    ((dbOneHistory.entries.filter (matchesKey "history" 1 1)).length = 1 →
      ∃ e, rce_get_or_create dbOneHistory "history" 1 1 12 =
        Except.ok (e, false, dbOneHistory)) ∧
    (2 ≤ (dbOneHistory.entries.filter (matchesKey "history" 1 1)).length →
      rce_get_or_create dbOneHistory "history" 1 1 12 =
        Except.error OrmError.multipleObjectsReturned) ∧
    (update_collection dbOneHistory (some 1) (some 1) (some "history") "add" 12).2 =
      dbOneHistory :=
  history_generic_add_never_duplicates dbOneHistory 1 1 12 (by decide)

/-- C9: for a valid collection name, `remove` deletes every matching
entry (for history, every entry on every date, since the key omits
`saving_date`), reports the number removed, answers 200, and when nothing
matched reports 0 with the "not present" message, without raising and
without touching the store (`update_collection` action `"remove"`,
utils.py lines 593-613). -/
theorem remove_semantics (db : Database) (M R : Nat) (cn : String) (t : Int)
    (hcn : cn = "history" ∨ cn = "album" ∨ cn = "trials") :
    (rce_delete db cn M R).1 = (db.entries.filter (matchesKey cn M R)).length ∧
    ((rce_delete db cn M R).2.entries.filter (matchesKey cn M R)) = [] ∧
    (update_collection db (some M) (some R) (some cn) "remove" t).1.status = 200 ∧
    (db.entries.filter (matchesKey cn M R) = [] →
      (rce_delete db cn M R).1 = 0 ∧
      (update_collection db (some M) (some R) (some cn) "remove" t).1.message =
        "La recette ne fait pas partie de votre " ++ collection_title cn ++ "." ∧
      (update_collection db (some M) (some R) (some cn) "remove" t).2 = db) := by
  have hval : check_request_validity (some M) (some R) (some cn) = none := by
    rcases hcn with rfl | rfl | rfl <;>
      simp [check_request_validity, MODEL_COLLECTION_CHOICES]
  have hupd : update_collection db (some M) (some R) (some cn) "remove" t =
      (if (rce_delete db cn M R).1 > 0 then
        ({ status := 200,
           message := "La recette a été supprimée de votre " ++ collection_title cn ++ "." },
         (rce_delete db cn M R).2)
      else
        ({ status := 200,
           message := "La recette ne fait pas partie de votre " ++ collection_title cn ++ "." },
         (rce_delete db cn M R).2)) := by
    simp [update_collection, hval]
  refine ⟨rfl, ?_, ?_, ?_⟩
  · simp only [rce_delete]
    rw [List.filter_filter]
    have : ∀ e : CollectionEntry,
        (matchesKey cn M R e && ! matchesKey cn M R e) = false := by
      intro e
      cases matchesKey cn M R e <;> rfl
    simp [this]
  · rw [hupd]
    by_cases hpos : (rce_delete db cn M R).1 > 0
    · rw [if_pos hpos]
    · rw [if_neg hpos]
  · intro h0
    have hcount : (rce_delete db cn M R).1 = 0 := by
      simp [rce_delete, h0]
    have hent : db.entries.filter (fun e => ! matchesKey cn M R e) = db.entries := by
      apply List.filter_eq_self.mpr
      intro a ha
      have := List.filter_eq_nil_iff.mp h0 a ha
      simp [this]
    refine ⟨hcount, ?_, ?_⟩
    · rw [hupd, if_neg (by omega)]
    · rw [hupd, if_neg (by omega)]
      simp only [rce_delete]
      rw [hent]

/-- Witness for C9 on a store holding one album entry for (member 2,
recipe 5) and nothing matching (member 2, recipe 6). -/
theorem remove_semantics_witness :
    (rce_delete dbOneHistory "album" 2 6).1 =
      (dbOneHistory.entries.filter (matchesKey "album" 2 6)).length ∧
    ((rce_delete dbOneHistory "album" 2 6).2.entries.filter (matchesKey "album" 2 6)) = [] ∧
    (update_collection dbOneHistory (some 2) (some 6) (some "album") "remove" 3).1.status = 200 ∧
    (dbOneHistory.entries.filter (matchesKey "album" 2 6) = [] →
      (rce_delete dbOneHistory "album" 2 6).1 = 0 ∧
      (update_collection dbOneHistory (some 2) (some 6) (some "album") "remove" 3).1.message =
        "La recette ne fait pas partie de votre " ++ collection_title "album" ++ "." ∧
      (update_collection dbOneHistory (some 2) (some 6) (some "album") "remove" 3).2 =
        dbOneHistory) :=
  remove_semantics dbOneHistory 2 6 "album" 3 (Or.inr (Or.inl rfl))

/-- Membership in the sequential ingredient-filter loop over recipes
(utils.py lines 481-483): a recipe survives iff it was in the input and,
for every non-empty term, it has at least one matching ingredient. -/
theorem mem_apply_recipe_ingredient_filters :
    ∀ (terms : List String) (init : List RecipeRec) (r : RecipeRec),
      r ∈ apply_recipe_ingredient_filters terms init ↔
        r ∈ init ∧ ∀ t ∈ terms, t ≠ "" → recipe_has_ingredient_like r t = true := by
  intro terms
  induction terms with
  | nil =>
    intro init r
    simp [apply_recipe_ingredient_filters]
  | cons t ts ih =>
    intro init r
    simp only [apply_recipe_ingredient_filters, List.foldl_cons] at ih ⊢
    by_cases ht : t = ""
    · rw [if_neg (by simp [ht])]
      rw [ih]
      constructor
      · rintro ⟨h1, h2⟩
        exact ⟨h1, by
          intro t' ht' hne
          rcases List.mem_cons.mp ht' with rfl | ht'
          · exact absurd ht (by simpa using hne)
          · exact h2 t' ht' hne⟩
      · rintro ⟨h1, h2⟩
        exact ⟨h1, fun t' ht' hne => h2 t' (List.mem_cons_of_mem _ ht') hne⟩
    · rw [if_pos ht]
      rw [ih]
      simp only [List.mem_filter, List.mem_cons]
      constructor
      · rintro ⟨⟨h1, hp⟩, h2⟩
        refine ⟨h1, ?_⟩
        intro t' ht' hne
        rcases ht' with rfl | ht'
        · exact hp
        · exact h2 t' ht' hne
      · rintro ⟨h1, h2⟩
        exact ⟨⟨h1, h2 t (Or.inl rfl) ht⟩, fun t' ht' hne => h2 t' (Or.inr ht') hne⟩

/-- The ingredient-filter loop over recipes is monotone with respect to
the sublist order of its input. -/
theorem apply_recipe_ingredient_filters_sublist :
    ∀ (terms : List String) (l1 l2 : List RecipeRec), List.Sublist l1 l2 →
      List.Sublist (apply_recipe_ingredient_filters terms l1)
        (apply_recipe_ingredient_filters terms l2) := by
  intro terms
  induction terms with
  | nil =>
    intro l1 l2 h
    simpa [apply_recipe_ingredient_filters] using h
  | cons t ts ih =>
    intro l1 l2 h
    simp only [apply_recipe_ingredient_filters, List.foldl_cons] at ih ⊢
    by_cases ht : t = ""
    · rw [if_neg (by simp [ht]), if_neg (by simp [ht])]
      exact ih _ _ h
    · rw [if_pos ht, if_pos ht]
      exact ih _ _ (h.filter _)

/-- The ingredient-filter loop over collection entries is monotone with
respect to the sublist order of its input. -/
theorem apply_ingredient_filters_sublist (db : Database) :
    ∀ (terms : List String) (l1 l2 : List CollectionEntry), List.Sublist l1 l2 →
      List.Sublist (apply_ingredient_filters db terms l1)
        (apply_ingredient_filters db terms l2) := by
  intro terms
  induction terms with
  | nil =>
    intro l1 l2 h
    simpa [apply_ingredient_filters] using h
  | cons t ts ih =>
    intro l1 l2 h
    simp only [apply_ingredient_filters, List.foldl_cons] at ih ⊢
    by_cases ht : t = ""
    · rw [if_neg (by simp [ht]), if_neg (by simp [ht])]
      exact ih _ _ h
    · rw [if_pos ht, if_pos ht]
      exact ih _ _ (h.filter _)

/-- The ingredient-filter loop only removes rows. -/
theorem apply_ingredient_filters_sublist_self (db : Database) :
    ∀ (terms : List String) (l : List CollectionEntry),
      List.Sublist (apply_ingredient_filters db terms l) l := by
  intro terms
  induction terms with
  | nil =>
    intro l
    simp [apply_ingredient_filters]
  | cons t ts ih =>
    intro l
    simp only [apply_ingredient_filters, List.foldl_cons] at ih ⊢
    by_cases ht : t = ""
    · rw [if_neg (by simp [ht])]
      exact ih l
    · rw [if_pos ht]
      exact (ih _).trans (List.filter_sublist l)

theorem apply_recipe_ingredient_filters_sublist_self :
    ∀ (terms : List String) (l : List RecipeRec),
      List.Sublist (apply_recipe_ingredient_filters terms l) l := by
  intro terms
  induction terms with
  | nil =>
    intro l
    simp [apply_recipe_ingredient_filters]
  | cons t ts ih =>
    intro l
    simp only [apply_recipe_ingredient_filters, List.foldl_cons] at ih ⊢
    by_cases ht : t = ""
    · rw [if_neg (by simp [ht])]
      exact ih l
    · rw [if_pos ht]
      exact (ih _).trans (List.filter_sublist l)

/-- C5: in a search whose only criteria are the (normalized) ingredient
terms, a recipe is in the result iff, for each non-empty term, it
contains at least one ingredient whose name contains the term as a
case-insensitive substring — the terms are ANDed, each matched
independently against the ingredient set (utils.py lines 330-360 and
481-483). -/
theorem ingredient_terms_anded_independently (normalize : String → String) (db : Database)
    (lu : Option Nat) (i1 i2 i3 : String) (l : List RecipeRec)
    (h : get_filtered_recipe_qs normalize db
      { title := "", category := "", ingredient_1 := i1, ingredient_2 := i2,
        ingredient_3 := i3, collection_name := "", member := MemberScope.empty } lu =
      Except.ok l) :
    ∀ r, r ∈ l ↔ r ∈ db.recipes ∧
      ∀ t ∈ [normalize i1, normalize i2, normalize i3], t ≠ "" →
        ∃ nm ∈ r.ingredientNames, icontains nm t = true := by
  have hshape : get_filtered_recipe_qs normalize db
      { title := "", category := "", ingredient_1 := i1, ingredient_2 := i2,
        ingredient_3 := i3, collection_name := "", member := MemberScope.empty } lu =
      Except.ok (sortLe recipeTitleLe
        (apply_recipe_ingredient_filters [normalize i1, normalize i2, normalize i3]
          db.recipes)) := by
    have hp : db.recipes.filter (recipe_passes_title_category "" "") = db.recipes := by
      apply List.filter_eq_self.mpr
      intro a _
      simp [recipe_passes_title_category]
    simp [get_filtered_recipe_qs, get_ingredient_inputs, hp]
  rw [hshape] at h
  injection h with h
  subst h
  intro r
  rw [mem_sortLe, mem_apply_recipe_ingredient_filters]
  simp only [recipe_has_ingredient_like, List.any_eq_true]

/-- Witness for C5: the recipe "tarte" is in the result of the
ingredient search "rot" over a concrete two-recipe store because its
ingredient "Carotte" matches. -/
theorem ingredient_terms_anded_independently_witness :
    ({ id := 1, title := "tarte", category := "dessert",
       ingredientNames := ["Carotte", "sucre"] } : RecipeRec) ∈
      [({ id := 1, title := "tarte", category := "dessert",
          ingredientNames := ["Carotte", "sucre"] } : RecipeRec)] :=
  (ingredient_terms_anded_independently (fun s => s)
    { members := [],
      recipes :=
        [{ id := 1, title := "tarte", category := "dessert",
           ingredientNames := ["Carotte", "sucre"] },
         { id := 2, title := "gateau", category := "dessert",
           ingredientNames := ["chocolat"] }],
      entries := [], next_entry_id := 0 }
    none "rot" "" ""
    [{ id := 1, title := "tarte", category := "dessert",
       ingredientNames := ["Carotte", "sucre"] }]
    rfl
    { id := 1, title := "tarte", category := "dessert",
      ingredientNames := ["Carotte", "sucre"] }).mpr
    ⟨by decide, by decide⟩

/-- The bare-recipe engine, for a fixed member scope, either fails for
every title (the failure does not depend on the title) or computes, for
every title, the same pipeline over the same member-scoped base set. -/
theorem recipe_base_cases (normalize : String → String) (db : Database) (form : FilterForm)
    (lu : Option Nat) :
    (∃ msg, ∀ t', get_filtered_recipe_qs normalize db { form with title := t' } lu =
      Except.error msg) ∨
    (∃ qs : List RecipeRec, ∀ t',
      get_filtered_recipe_qs normalize db { form with title := t' } lu =
      Except.ok (sortLe recipeTitleLe
        (apply_recipe_ingredient_filters (get_ingredient_inputs normalize form)
          (qs.filter (recipe_passes_title_category t' form.category))))) := by
  by_cases hm : form.member = MemberScope.empty
  · right
    refine ⟨db.recipes, fun t' => ?_⟩
    simp [get_filtered_recipe_qs, hm, get_ingredient_inputs]
  · rcases hfm : filter_recipe_collection_by_member db (sortLe (byRecipeTitle db) db.entries)
        form.member lu with msg | cqs
    · left
      refine ⟨msg, fun t' => ?_⟩
      simp [get_filtered_recipe_qs, hm, hfm]
    · right
      refine ⟨db.recipes.filter (fun r => (cqs.map CollectionEntry.recipe).contains r.id),
        fun t' => ?_⟩
      simp [get_filtered_recipe_qs, hm, hfm, get_ingredient_inputs]

/-- The collection engine, for a fixed member scope, either fails for
every title or computes, for every title, the same pipeline over the same
collapsed member-scoped base set. -/
theorem collection_base_cases (normalize : String → String) (db : Database) (form : FilterForm)
    (lu : Option Nat) :
    (∃ msg, ∀ t', get_filtered_recipe_collection_qs normalize db { form with title := t' } lu =
      Except.error msg) ∨
    (∃ qs2 : List CollectionEntry, ∀ t',
      get_filtered_recipe_collection_qs normalize db { form with title := t' } lu =
      Except.ok (apply_ingredient_filters db (get_ingredient_inputs normalize form)
        (qs2.filter (entry_passes_title_category db t' form.category)))) := by
  rcases hfm : filter_recipe_collection_by_member db
      (get_recipe_collection_by_sort_order db form.collection_name) form.member lu
    with msg | qs1
  · left
    refine ⟨msg, fun t' => ?_⟩
    simp [get_filtered_recipe_collection_qs, hfm]
  · right
    refine ⟨if form.collection_name = "history" then collapse_min_id qs1 historyGroupKey
        else collapse_min_id qs1 recipeGroupKey, fun t' => ?_⟩
    by_cases hh : form.collection_name = "history"
    · rw [hh] at hfm
      simp [get_filtered_recipe_collection_qs, hfm, hh, get_ingredient_inputs]
    · simp [get_filtered_recipe_collection_qs, hfm, hh, get_ingredient_inputs]

/-- A recipe passing the title+category filter for some title also
passes it with the title criterion removed. -/
theorem recipe_passes_drop_title (t category : String) (r : RecipeRec)
    (h : recipe_passes_title_category t category r = true) :
    recipe_passes_title_category "" category r = true := by
  simp only [recipe_passes_title_category, Bool.and_eq_true] at h ⊢
  exact ⟨by simp, h.2⟩

theorem entry_passes_drop_title (db : Database) (t category : String) (e : CollectionEntry)
    (h : entry_passes_title_category db t category e = true) :
    entry_passes_title_category db "" category e = true := by
  simp only [entry_passes_title_category, Bool.and_eq_true] at h ⊢
  exact ⟨by simp, h.2⟩

/-- C4: with zero criteria the engine returns the full recipe universe in
its canonical title order and does not fail (utils.py lines 449-485); and
for any fixed remaining criteria, on either engine, a search with a title
criterion returns a subset of the same search without it — the title
filter only ever removes rows. -/
theorem filter_engine_zero_criteria_and_title_monotone (normalize : String → String)
    (db : Database) (lu : Option Nat) (hn : normalize "" = "") :
    get_filtered_recipe_qs normalize db
      { title := "", category := "", ingredient_1 := "", ingredient_2 := "",
        ingredient_3 := "", collection_name := "", member := MemberScope.empty } lu =
      Except.ok (recipe_universe db) ∧
    (∀ (form : FilterForm) (t : String) (l l0 : List RecipeRec),
      get_filtered_recipe_qs normalize db { form with title := t } lu = Except.ok l →
      get_filtered_recipe_qs normalize db { form with title := "" } lu = Except.ok l0 →
      ∀ r, r ∈ l → r ∈ l0) ∧
    (∀ (form : FilterForm) (t : String) (l l0 : List CollectionEntry),
      get_filtered_recipe_collection_qs normalize db { form with title := t } lu =
        Except.ok l →
      get_filtered_recipe_collection_qs normalize db { form with title := "" } lu =
        Except.ok l0 →
      ∀ e, e ∈ l → e ∈ l0) := by
  refine ⟨?_, ?_, ?_⟩
  · have hp : db.recipes.filter (recipe_passes_title_category "" "") = db.recipes := by
      apply List.filter_eq_self.mpr
      intro a _
      simp [recipe_passes_title_category]
    have hterms : apply_recipe_ingredient_filters
        [normalize "", normalize "", normalize ""] db.recipes = db.recipes := by
      simp [apply_recipe_ingredient_filters, hn]
    simp [get_filtered_recipe_qs, get_ingredient_inputs, hp, hterms, recipe_universe]
  · intro form t l l0 h1 h0 r hr
    rcases recipe_base_cases normalize db form lu with ⟨msg, hall⟩ | ⟨qs, hall⟩
    · rw [hall t] at h1
      cases h1
    · rw [hall t] at h1
      rw [hall ""] at h0
      injection h1 with h1
      injection h0 with h0
      subst h1
      subst h0
      rw [mem_sortLe] at hr ⊢
      refine List.Sublist.subset ?_ hr
      exact apply_recipe_ingredient_filters_sublist _ _ _
        (filter_sublist_of_imp _ _ (recipe_passes_drop_title t form.category) qs)
  · intro form t l l0 h1 h0 e he
    rcases collection_base_cases normalize db form lu with ⟨msg, hall⟩ | ⟨qs2, hall⟩
    · rw [hall t] at h1
      cases h1
    · rw [hall t] at h1
      rw [hall ""] at h0
      injection h1 with h1
      injection h0 with h0
      subst h1
      subst h0
      refine List.Sublist.subset ?_ he
      exact apply_ingredient_filters_sublist db _ _ _
        (filter_sublist_of_imp _ _ (entry_passes_drop_title db t form.category) qs2)

/-- A store with two recipes and no collection entries. -/
def dbTwoRecipes : Database :=
  { members := [],
    recipes :=
      [{ id := 1, title := "tarte", category := "dessert",
         ingredientNames := ["Carotte", "sucre"] },
       { id := 2, title := "gateau", category := "dessert",
         ingredientNames := ["chocolat"] }],
    entries := [], next_entry_id := 0 }

/-- Witness for C4 with the identity normalizer on a two-recipe store:
the zero-criteria search, and the title searches "ar" versus none. -/
theorem filter_engine_zero_criteria_and_title_monotone_witness :
    get_filtered_recipe_qs (fun s => s) dbTwoRecipes
      { title := "", category := "", ingredient_1 := "", ingredient_2 := "",
        ingredient_3 := "", collection_name := "", member := MemberScope.empty } none =
      Except.ok (recipe_universe dbTwoRecipes) ∧
    (∀ (form : FilterForm) (t : String) (l l0 : List RecipeRec),
      get_filtered_recipe_qs (fun s => s) dbTwoRecipes { form with title := t } none =
        Except.ok l →
      get_filtered_recipe_qs (fun s => s) dbTwoRecipes { form with title := "" } none =
        Except.ok l0 →
      ∀ r, r ∈ l → r ∈ l0) ∧
    (∀ (form : FilterForm) (t : String) (l l0 : List CollectionEntry),
      get_filtered_recipe_collection_qs (fun s => s) dbTwoRecipes { form with title := t }
        none = Except.ok l →
      get_filtered_recipe_collection_qs (fun s => s) dbTwoRecipes { form with title := "" }
        none = Except.ok l0 →
      ∀ e, e ∈ l → e ∈ l0) :=
  filter_engine_zero_criteria_and_title_monotone (fun s => s) dbTwoRecipes none rfl

theorem byDateDesc_total (a b : CollectionEntry) : byDateDesc a b || byDateDesc b a := by
  simp only [byDateDesc, Bool.or_eq_true, decide_eq_true_eq]
  exact le_total b.saving_date a.saving_date

theorem byDateDesc_trans (a b c : CollectionEntry) :
    byDateDesc a b = true → byDateDesc b c = true → byDateDesc a c = true := by
  simp only [byDateDesc, decide_eq_true_eq]
  intro h1 h2
  exact le_trans h2 h1

theorem byRecipeTitle_total (db : Database) (a b : CollectionEntry) :
    byRecipeTitle db a b || byRecipeTitle db b a :=
  strLe_total (entry_title db a) (entry_title db b)

theorem byRecipeTitle_trans (db : Database) (a b c : CollectionEntry) :
    byRecipeTitle db a b = true → byRecipeTitle db b c = true → byRecipeTitle db a c = true :=
  strLe_trans (entry_title db a) (entry_title db b) (entry_title db c)

theorem recipeTitleLe_total (a b : RecipeRec) : recipeTitleLe a b || recipeTitleLe b a :=
  strLe_total a.title b.title

theorem recipeTitleLe_trans (a b c : RecipeRec) :
    recipeTitleLe a b = true → recipeTitleLe b c = true → recipeTitleLe a c = true :=
  strLe_trans a.title b.title c.title

/-- The member-scope narrowing never reorders or adds: a successful
result is a sublist of its input queryset. -/
theorem filter_by_member_ok_sublist (db : Database) (qs : List CollectionEntry)
    (member : MemberScope) (lu : Option Nat) (qs' : List CollectionEntry)
    (h : filter_recipe_collection_by_member db qs member lu = Except.ok qs') :
    List.Sublist qs' qs := by
  unfold filter_recipe_collection_by_member at h
  split at h
  · cases h
  · split at h
    · injection h with h
      subst h
      exact List.Sublist.refl qs
    · split at h <;>
        first
        | (injection h with h; subst h; exact List.filter_sublist qs)
        | (injection h with h; subst h; exact List.Sublist.refl qs)

/-- Decomposition of a successful collection search: the member-scoped
ordered base set, and the result as collapse + filters over it. -/
theorem collection_qs_ok_components (normalize : String → String) (db : Database)
    (form : FilterForm) (lu : Option Nat) (l : List CollectionEntry)
    (hok : get_filtered_recipe_collection_qs normalize db form lu = Except.ok l) :
    ∃ qs1, filter_recipe_collection_by_member db
        (get_recipe_collection_by_sort_order db form.collection_name) form.member lu =
        Except.ok qs1 ∧
      l = apply_ingredient_filters db (get_ingredient_inputs normalize form)
        ((if form.collection_name = "history" then collapse_min_id qs1 historyGroupKey
          else collapse_min_id qs1 recipeGroupKey).filter
          (entry_passes_title_category db form.title form.category)) := by
  rcases hfm : filter_recipe_collection_by_member db
      (get_recipe_collection_by_sort_order db form.collection_name) form.member lu
    with msg | qs1
  · simp [get_filtered_recipe_collection_qs, hfm] at hok
  · refine ⟨qs1, rfl, ?_⟩
    simp only [get_filtered_recipe_collection_qs, hfm] at hok
    by_cases hh : form.collection_name = "history"
    · rw [if_pos hh]
      simp only [hh, if_pos rfl] at hok
      injection hok with hok
      exact hok.symm
    · rw [if_neg hh]
      simp only [if_neg hh] at hok
      injection hok with hok
      exact hok.symm

/-- The tail of the collection pipeline (collapse, title/category filter,
ingredient filters) only removes rows from the member-scoped base set. -/
theorem collection_tail_sublist (normalize : String → String) (db : Database)
    (form : FilterForm) (qs1 : List CollectionEntry) :
    List.Sublist
      (apply_ingredient_filters db (get_ingredient_inputs normalize form)
        ((if form.collection_name = "history" then collapse_min_id qs1 historyGroupKey
          else collapse_min_id qs1 recipeGroupKey).filter
          (entry_passes_title_category db form.title form.category)))
      qs1 := by
  refine (apply_ingredient_filters_sublist_self db _ _).trans
    ((List.filter_sublist _).trans ?_)
  by_cases hh : form.collection_name = "history"
  · rw [if_pos hh]
    exact List.filter_sublist qs1
  · rw [if_neg hh]
    exact List.filter_sublist qs1

/-- C7: every listing produced by the engine is ordered — a history
collection listing newest-saving-date-first, every other collection
listing by recipe title ascending, and the bare-recipe listing by title
ascending (utils.py lines 362-379 and 485). -/
theorem listings_ordered (normalize : String → String) (db : Database)
    (form : FilterForm) (lu : Option Nat) :
    (∀ l, get_filtered_recipe_collection_qs normalize db
        { form with collection_name := "history" } lu = Except.ok l →
      l.Pairwise (fun a b => b.saving_date ≤ a.saving_date)) ∧
    (form.collection_name ≠ "history" →
      ∀ l, get_filtered_recipe_collection_qs normalize db form lu = Except.ok l →
        l.Pairwise (fun a b => strLe (entry_title db a) (entry_title db b) = true)) ∧
    (∀ l, get_filtered_recipe_qs normalize db form lu = Except.ok l →
      l.Pairwise (fun a b => strLe a.title b.title = true)) := by
  refine ⟨?_, ?_, ?_⟩
  · intro l hok
    obtain ⟨qs1, hfm, hl⟩ := collection_qs_ok_components normalize db _ lu l hok
    have hbase : (get_recipe_collection_by_sort_order db "history").Pairwise
        (fun a b => byDateDesc a b = true) := by
      simp only [get_recipe_collection_by_sort_order, if_pos rfl]
      exact sortLe_pairwise _ byDateDesc_total byDateDesc_trans _
    have hqs1 : qs1.Pairwise (fun a b => byDateDesc a b = true) :=
      hbase.sublist (filter_by_member_ok_sublist db _ _ lu qs1 hfm)
    have hsub := collection_tail_sublist normalize db
      { form with collection_name := "history" } qs1
    rw [← hl] at hsub
    exact (hqs1.sublist hsub).imp (fun h => by
      simpa [byDateDesc, decide_eq_true_eq] using h)
  · intro hh l hok
    obtain ⟨qs1, hfm, hl⟩ := collection_qs_ok_components normalize db form lu l hok
    have hbase : (get_recipe_collection_by_sort_order db form.collection_name).Pairwise
        (fun a b => byRecipeTitle db a b = true) := by
      by_cases he : form.collection_name = ""
      · simp only [get_recipe_collection_by_sort_order, he]
        simp only [if_neg (by decide : ¬ ("" : String) = "history"), ne_eq,
          not_true_eq_false, if_neg, if_false]
        exact sortLe_pairwise _ (byRecipeTitle_total db) (byRecipeTitle_trans db) _
      · simp only [get_recipe_collection_by_sort_order, if_neg hh, ne_eq, he,
          not_false_iff, if_pos]
        exact sortLe_pairwise _ (byRecipeTitle_total db) (byRecipeTitle_trans db) _
    have hqs1 : qs1.Pairwise (fun a b => byRecipeTitle db a b = true) :=
      hbase.sublist (filter_by_member_ok_sublist db _ _ lu qs1 hfm)
    have hsub := collection_tail_sublist normalize db form qs1
    rw [← hl] at hsub
    exact (hqs1.sublist hsub).imp (fun h => h)
  · intro l hok
    rcases recipe_base_cases normalize db form lu with ⟨msg, hall⟩ | ⟨qs, hall⟩
    · have h := hall form.title
      rw [show ({ form with title := form.title } : FilterForm) = form from rfl] at h
      rw [h] at hok
      cases hok
    · have h := hall form.title
      rw [show ({ form with title := form.title } : FilterForm) = form from rfl] at h
      rw [h] at hok
      injection hok with hok
      subst hok
      exact sortLe_pairwise _ recipeTitleLe_total recipeTitleLe_trans _

/-- A store with two recipes, a two-dated history and a two-recipe album
for member 1. -/
def dbHistoryAndAlbum : Database :=
  { members := [{ id := 1, username := "alice", password := "h", friends := [] }],
    recipes :=
      [{ id := 1, title := "tarte", category := "dessert",
         ingredientNames := ["Carotte", "sucre"] },
       { id := 2, title := "gateau", category := "dessert",
         ingredientNames := ["chocolat"] }],
    entries :=
      [{ id := 0, collection_name := "history", member := 1, recipe := 1,
         saving_date := 10, personal_note := none },
       { id := 1, collection_name := "history", member := 1, recipe := 1,
         saving_date := 11, personal_note := none },
       { id := 2, collection_name := "album", member := 1, recipe := 2,
         saving_date := 12, personal_note := none },
       { id := 3, collection_name := "album", member := 1, recipe := 1,
         saving_date := 12, personal_note := none }],
    next_entry_id := 4 }

/-- Witness for C7 on `dbHistoryAndAlbum`: the history listing comes out
newest-first, the album listing and the bare-recipe listing come out in
title order. -/
theorem listings_ordered_witness :
    ([({ id := 1, collection_name := "history", member := 1, recipe := 1,
         saving_date := 11, personal_note := none } : CollectionEntry),
      { id := 0, collection_name := "history", member := 1, recipe := 1,
        saving_date := 10, personal_note := none }].Pairwise
      (fun a b => b.saving_date ≤ a.saving_date)) ∧
    ([({ id := 2, collection_name := "album", member := 1, recipe := 2,
         saving_date := 12, personal_note := none } : CollectionEntry),
      { id := 3, collection_name := "album", member := 1, recipe := 1,
        saving_date := 12, personal_note := none }].Pairwise
      (fun a b => strLe (entry_title dbHistoryAndAlbum a)
        (entry_title dbHistoryAndAlbum b) = true)) ∧
    ([({ id := 2, title := "gateau", category := "dessert",
         ingredientNames := ["chocolat"] } : RecipeRec),
      { id := 1, title := "tarte", category := "dessert",
        ingredientNames := ["Carotte", "sucre"] }].Pairwise
      (fun a b => strLe a.title b.title = true)) := by
  have h := listings_ordered (fun s => s) dbHistoryAndAlbum
    { title := "", category := "", ingredient_1 := "", ingredient_2 := "",
      ingredient_3 := "", collection_name := "album", member := MemberScope.empty } none
  exact ⟨h.1 _ rfl, h.2.1 (by decide) _ rfl, h.2.2 _ rfl⟩

theorem foldr_min_mem (l : List Nat) (a : Nat) :
    l.foldr min a = a ∨ l.foldr min a ∈ l := by
  induction l with
  | nil => exact Or.inl rfl
  | cons x xs ih =>
    simp only [List.foldr_cons]
    rcases le_total x (xs.foldr min a) with h | h
    · right
      rw [min_eq_left h]
      exact List.mem_cons_self x xs
    · rw [min_eq_right h]
      rcases ih with h' | h'
      · exact Or.inl h'
      · exact Or.inr (List.mem_cons_of_mem x h')

theorem foldr_min_le (l : List Nat) (a : Nat) :
    ∀ x ∈ l, l.foldr min a ≤ x := by
  induction l with
  | nil => simp
  | cons x xs ih =>
    intro y hy
    rcases List.mem_cons.mp hy with rfl | hy
    · simp only [List.foldr_cons]
      exact min_le_left _ _
    · simp only [List.foldr_cons]
      exact le_trans (min_le_right _ _) (ih y hy)

/-- The minimum id of a group is realized by some row of the group. -/
theorem group_min_id_exists {κ : Type} [DecidableEq κ] (qs : List CollectionEntry)
    (k : CollectionEntry → κ) (g : CollectionEntry) (hg : g ∈ qs) :
    ∃ m ∈ qs, k m = k g ∧ m.id = group_min_id qs k g := by
  rcases foldr_min_mem
      ((qs.filter (fun x => decide (k x = k g))).map CollectionEntry.id) g.id with h | h
  · exact ⟨g, hg, rfl, h.symm⟩
  · rcases List.mem_map.mp h with ⟨m, hm, hmid⟩
    have hm' := List.mem_filter.mp hm
    exact ⟨m, hm'.1, by simpa using hm'.2, hmid⟩

/-- The minimum id of a group bounds the id of every row of the group. -/
theorem group_min_id_le {κ : Type} [DecidableEq κ] (qs : List CollectionEntry)
    (k : CollectionEntry → κ) (g x : CollectionEntry) (hx : x ∈ qs) (hkx : k x = k g) :
    group_min_id qs k g ≤ x.id := by
  have hgrp : x ∈ qs.filter (fun e => decide (k e = k g)) := by
    simp [List.mem_filter, hx, hkx]
  exact foldr_min_le _ _ x.id (List.mem_map_of_mem _ hgrp)

/-- When ids are pairwise distinct, the min-id collapse keeps at most one
row per key-group. -/
theorem collapse_min_id_key_pairwise {κ : Type} [DecidableEq κ] (qs : List CollectionEntry)
    (k : CollectionEntry → κ) (hids : (qs.map CollectionEntry.id).Nodup) :
    (collapse_min_id qs k).Pairwise (fun a b => ¬ k a = k b) := by
  have hinj : ∀ x ∈ qs, ∀ y ∈ qs, x.id = y.id → x = y := by
    intro x hx y hy hxy
    exact List.inj_on_of_nodup_map hids hx hy hxy
  have hsub : List.Sublist (collapse_min_id qs k) qs := List.filter_sublist qs
  have hmin : ∀ e ∈ collapse_min_id qs k, ∀ x ∈ qs, k x = k e → e.id ≤ x.id := by
    intro e he x hx hkx
    have he' := List.mem_filter.mp he
    have hcontains : e.id ∈ qs.map (fun g => group_min_id qs k g) := by
      simpa using he'.2
    rcases List.mem_map.mp hcontains with ⟨g, hg, hge⟩
    obtain ⟨m, hm, hkm, hmid⟩ := group_min_id_exists qs k g hg
    have hme : m = e := hinj m hm e he'.1 (by rw [hmid, hge])
    have hke : k e = k g := hme ▸ hkm
    have hle := group_min_id_le qs k g x hx (hkx.trans hke)
    rw [hge] at hle
    exact hle
  have hids' : ((collapse_min_id qs k).map CollectionEntry.id).Nodup :=
    hids.sublist (hsub.map CollectionEntry.id)
  have hpw : (collapse_min_id qs k).Pairwise (fun a b => a.id ≠ b.id) :=
    List.pairwise_map.mp hids'
  refine hpw.imp_of_mem ?_
  intro a b ha hb hab hk
  have h1 := hmin a ha b (hsub.subset hb) hk.symm
  have h2 := hmin b hb a (hsub.subset ha) hk
  exact hab (le_antisymm h1 h2)

/-- Sorting does not disturb distinctness of ids. -/
theorem sortLe_map_id_nodup (le : CollectionEntry → CollectionEntry → Bool)
    (l : List CollectionEntry) (h : (l.map CollectionEntry.id).Nodup) :
    ((sortLe le l).map CollectionEntry.id).Nodup :=
  (((sortLe_perm le l).map CollectionEntry.id).nodup_iff).mpr h

/-- The ordered base universe keeps distinct ids. -/
theorem sort_order_ids_nodup (db : Database) (cn : String)
    (hids : (db.entries.map CollectionEntry.id).Nodup) :
    ((get_recipe_collection_by_sort_order db cn).map CollectionEntry.id).Nodup := by
  by_cases h1 : cn = "history"
  · simp only [get_recipe_collection_by_sort_order, if_pos h1]
    exact sortLe_map_id_nodup _ _
      (hids.sublist ((List.filter_sublist _).map CollectionEntry.id))
  · by_cases h2 : cn ≠ ""
    · simp only [get_recipe_collection_by_sort_order, if_neg h1, if_pos h2]
      exact sortLe_map_id_nodup _ _
        (hids.sublist ((List.filter_sublist _).map CollectionEntry.id))
    · simp only [get_recipe_collection_by_sort_order, if_neg h1, if_neg h2]
      exact sortLe_map_id_nodup _ _ hids

/-- A store where two members filed the same recipe in their album, the
other member's entry having the smaller primary key. -/
def dbSharedRecipeAlbum : Database :=
  { members :=
      [{ id := 1, username := "alice", password := "h", friends := [] },
       { id := 2, username := "bob", password := "h", friends := [] }],
    recipes :=
      [{ id := 1, title := "tarte", category := "dessert", ingredientNames := [] }],
    entries :=
      [{ id := 0, collection_name := "album", member := 1, recipe := 1,
         saving_date := 5, personal_note := none },
       { id := 1, collection_name := "album", member := 2, recipe := 1,
         saving_date := 5, personal_note := none }],
    next_entry_id := 2 }

/-- Searching member 2's album. -/
def formAlbumMember2 : FilterForm :=
  { title := "", category := "", ingredient_1 := "", ingredient_2 := "",
    ingredient_3 := "", collection_name := "album", member := MemberScope.mem 2 }

/-- Counterexample to C8 as stated: the engine applies the member-scope
narrowing BEFORE the min-id collapse (utils.py line 426 before lines
428-433).  The order is observable: member 1's entry for the same recipe
holds the smaller id, so collapsing the universe first (the spec's step
2-then-3 order) would discard member 2's entry and return nothing, while
the implementation returns member 2's entry. -/
theorem collapse_before_member_differs :
    get_filtered_recipe_collection_qs (fun s => s) dbSharedRecipeAlbum
      formAlbumMember2 none =
      Except.ok [{ id := 1, collection_name := "album", member := 2, recipe := 1,
                   saving_date := 5, personal_note := none }] ∧
    spec_collapse_then_member (fun s => s) dbSharedRecipeAlbum formAlbumMember2 none =
      Except.ok [] :=
  ⟨rfl, rfl⟩

/-- C8 (amended): the engine narrows to the member scope first and then
collapses the narrowed set to the lowest-id row per recipe — per
`(recipe, saving_date)` for history; provided the store's row ids are
distinct, the returned set never holds two entries for the same key
(utils.py lines 425-433). -/
theorem member_then_collapse_no_duplicate_keys (normalize : String → String) (db : Database)
    (form : FilterForm) (lu : Option Nat) (l : List CollectionEntry)
    (hids : (db.entries.map CollectionEntry.id).Nodup)
    (hok : get_filtered_recipe_collection_qs normalize db form lu = Except.ok l) :
    (form.collection_name = "history" →
      l.Pairwise (fun a b => ¬ (a.recipe = b.recipe ∧ a.saving_date = b.saving_date))) ∧
    (form.collection_name ≠ "history" →
      l.Pairwise (fun a b => a.recipe ≠ b.recipe)) := by
  obtain ⟨qs1, hfm, hl⟩ := collection_qs_ok_components normalize db form lu l hok
  have hq1 : (qs1.map CollectionEntry.id).Nodup :=
    (sort_order_ids_nodup db form.collection_name hids).sublist
      ((filter_by_member_ok_sublist db _ _ lu qs1 hfm).map CollectionEntry.id)
  constructor
  · intro hh
    rw [hl, if_pos hh]
    have hcol := collapse_min_id_key_pairwise qs1 historyGroupKey hq1
    have hsub : List.Sublist
        (apply_ingredient_filters db (get_ingredient_inputs normalize form)
          ((collapse_min_id qs1 historyGroupKey).filter
            (entry_passes_title_category db form.title form.category)))
        (collapse_min_id qs1 historyGroupKey) :=
      (apply_ingredient_filters_sublist_self db _ _).trans (List.filter_sublist _)
    refine (hcol.sublist hsub).imp ?_
    intro a b hk hab
    exact hk (by
      simp only [historyGroupKey, Prod.mk.injEq]
      exact ⟨hab.1, hab.2⟩)
  · intro hh
    rw [hl, if_neg hh]
    have hcol := collapse_min_id_key_pairwise qs1 recipeGroupKey hq1
    have hsub : List.Sublist
        (apply_ingredient_filters db (get_ingredient_inputs normalize form)
          ((collapse_min_id qs1 recipeGroupKey).filter
            (entry_passes_title_category db form.title form.category)))
        (collapse_min_id qs1 recipeGroupKey) :=
      (apply_ingredient_filters_sublist_self db _ _).trans (List.filter_sublist _)
    refine (hcol.sublist hsub).imp ?_
    intro a b hk
    exact hk

/-- Witness for the amended C8 on the album of `dbHistoryAndAlbum`. -/
theorem member_then_collapse_no_duplicate_keys_witness :
    ([({ id := 2, collection_name := "album", member := 1, recipe := 2,
         saving_date := 12, personal_note := none } : CollectionEntry),
      { id := 3, collection_name := "album", member := 1, recipe := 1,
        saving_date := 12, personal_note := none }].Pairwise
      (fun a b => a.recipe ≠ b.recipe)) :=
  (member_then_collapse_no_duplicate_keys (fun s => s) dbHistoryAndAlbum
    { title := "", category := "", ingredient_1 := "", ingredient_2 := "",
      ingredient_3 := "", collection_name := "album", member := MemberScope.empty } none
    [{ id := 2, collection_name := "album", member := 1, recipe := 2,
       saving_date := 12, personal_note := none },
     { id := 3, collection_name := "album", member := 1, recipe := 1,
       saving_date := 12, personal_note := none }]
    (by decide) rfl).2 (by decide)

end RecipeJournal
